import Mathlib

/-!
Shallow embedding of the library-management REST service in `src/main.py`.

The relational store is modelled as a `DB` value holding the three tables
(users, books, checkouts) as lists of rows.  Each FastAPI handler becomes a
pure function from a `DB` (plus the request payload and the current wall-clock
time, passed explicitly) to `Except ApiError (result × DB)`.  An `.error`
result models an `HTTPException` (or an uncaught Python exception): the
session is closed without commit, so the database is left unchanged.

Timestamps are modelled at second granularity as `Nat` seconds since an
epoch; dates as `Nat` days.  Money (`Numeric(10,2)` fine balances, the
0.50/day late fee) is modelled as `Rat`.
-/

namespace LibraryApi

/-- A row of the `users` table (`class User` in `src/main.py`). -/
structure UserRec where
  user_id : Nat
  name : String
  email : String
  member_since : Nat
  fine_balance : Rat
  address : Option String
  phone_number : Option String
deriving DecidableEq, Repr

/-- A row of the `books` table (`class Book` in `src/main.py`). -/
structure BookRec where
  isbn : Nat
  title : String
  author : String
  publisher : Option String
  year : Option Int
  pages : Option Int
  genre : Option String
  location : Option String
  is_available : Bool
deriving DecidableEq, Repr

/-- A row of the `checkouts` table (`class Checkout` in `src/main.py`). -/
structure CheckoutRec where
  checkout_id : Nat
  user_id : Nat
  isbn : Nat
  checkout_date : Nat
  due_date : Nat
  return_date : Option Nat
deriving DecidableEq, Repr

/-- The whole relational store, plus the autoincrement counter backing
`Checkout.checkout_id`. -/
structure DB where
  users : List UserRec
  books : List BookRec
  checkouts : List CheckoutRec
  next_checkout_id : Nat
deriving DecidableEq, Repr

/-- Request body of `POST /users` and `PUT /users` (`class UserIn`). -/
structure UserIn where
  name : String
  email : String
  address : Option String
  phoneNumber : Option String
deriving DecidableEq, Repr

/-- Request body of `POST /books` and `PUT /books` (`class BookIn`). -/
structure BookIn where
  isbn : Nat
  title : String
  author : String
  publisher : Option String
  year : Option Int
  pages : Option Int
  genre : Option String
  location : Option String
deriving DecidableEq, Repr

/-- Request body of `PATCH /users` (`class UserUpdate`); a missing JSON field
and an explicit `null` both parse to `none`, exactly as Pydantic hands both
to the handler as `None`. -/
structure UserUpdate where
  name : Option String
  email : Option String
  address : Option String
  phoneNumber : Option String
deriving DecidableEq, Repr

/-- Request body of `PATCH /books` (`class BookUpdate`). -/
structure BookUpdate where
  title : Option String
  author : Option String
  publisher : Option String
  year : Option Int
  pages : Option Int
  genre : Option String
  location : Option String
deriving DecidableEq, Repr

/-- Request body of `POST /checkout` (`class CheckoutIn`). -/
structure CheckoutIn where
  userId : Nat
  isbn : Nat
deriving DecidableEq, Repr

/-- Error outcomes.  `notFound` is HTTP 404; `conflict` is the service's
HTTP 400 family (uniqueness violation, unavailable book, blocked delete),
the spec's Conflict/InvalidState taxonomy; `serverError` is an uncaught
Python exception (the transaction rolls back). -/
inductive ApiError where
  | notFound (msg : String)
  | conflict (msg : String)
  | serverError
deriving DecidableEq, Repr

/-- Seconds per day, the granularity of `timedelta(days=...)` and
`(return_date - due_date).days`. -/
def secondsPerDay : Nat := 86400

/-- `datetime.replace(hour=23, minute=59, second=59)`: keep the calendar day,
move the time of day to 23:59:59. -/
def endOfDay (t : Nat) : Nat := t / secondsPerDay * secondsPerDay + 86399

/-- The fixed loan period of `checkout_book`. -/
def loanPeriodDays : Nat := 30

/-- Replace the first element satisfying `p` by its image under `f`
(mutation of the single row returned by `query(...).filter(...).first()`). -/
def updateFirst (p : α → Bool) (f : α → α) : List α → List α
  | [] => []
  | x :: xs => if p x then f x :: xs else x :: updateFirst p f xs

/-- Remove the first element satisfying `p` (`session.delete(row)` on the
row returned by `query(...).filter(...).first()`). -/
def eraseFirst (p : α → Bool) : List α → List α
  | [] => []
  | x :: xs => if p x then xs else x :: eraseFirst p xs

/-- `session.query(User).filter(User.user_id == uid).first()`. -/
def findUser (db : DB) (uid : Nat) : Option UserRec :=
  db.users.find? fun u => u.user_id == uid

/-- `session.query(User).filter(User.email == e).first()`. -/
def findUserByEmail (db : DB) (e : String) : Option UserRec :=
  db.users.find? fun u => u.email == e

/-- `session.query(Book).filter(Book.isbn == i).first()`. -/
def findBook (db : DB) (i : Nat) : Option BookRec :=
  db.books.find? fun b => b.isbn == i

/-- The filter of `return_book`: open checkout for this book and user. -/
def isOpenFor (i uid : Nat) (c : CheckoutRec) : Bool :=
  c.isbn == i && c.user_id == uid && c.return_date.isNone

/-- `query(Checkout).filter(isbn, user_id, return_date is null).first()`. -/
def findOpenCheckout (db : DB) (i uid : Nat) : Option CheckoutRec :=
  db.checkouts.find? (isOpenFor i uid)

/-- `query(Checkout).filter(user_id, return_date is null).count()` used by
`delete_user`. -/
def openCheckoutCountForUser (db : DB) (uid : Nat) : Nat :=
  db.checkouts.countP fun c => c.user_id == uid && c.return_date.isNone

/-- `POST /users` (`create_user`): reject a taken email, otherwise assign
the next id (`max(existing) + 1`, or `100000` for an empty table, read off
via `order_by(user_id.desc()).first()`) and insert the row.  `member_since`
defaults to `date.today()` (the `today` argument); `fine_balance` defaults
to `0.00`.  Returns the new id. -/
def create_user (db : DB) (today : Nat) (inp : UserIn) : Except ApiError (Nat × DB) :=
  match findUserByEmail db inp.email with
  | some _ => .error (.conflict "Email already registered")
  | none =>
    let next_id : Nat :=
      match (db.users.map fun u => u.user_id).max? with
      | some m => m + 1
      | none => 100000
    let newUser : UserRec :=
      ⟨next_id, inp.name, inp.email, today, 0, inp.address, inp.phoneNumber⟩
    .ok (next_id, { db with users := db.users ++ [newUser] })

/-- `POST /books` (`create_book`): reject a taken ISBN, otherwise insert the
row; `is_available` defaults to `True`. -/
def create_book (db : DB) (inp : BookIn) : Except ApiError DB :=
  match findBook db inp.isbn with
  | some _ => .error (.conflict "Book with this ISBN already exists")
  | none =>
    let newBook : BookRec :=
      ⟨inp.isbn, inp.title, inp.author, inp.publisher, inp.year, inp.pages,
        inp.genre, inp.location, true⟩
    .ok { db with books := db.books ++ [newBook] }

/-- `book.is_available = False` in `checkout_book`. -/
def setUnavailable (b : BookRec) : BookRec := { b with is_available := false }

/-- `book.is_available = True` in `return_book`. -/
def setAvailable (b : BookRec) : BookRec := { b with is_available := true }

/-- `checkout.return_date = datetime.now()` in `return_book`. -/
def setReturned (now : Nat) (c : CheckoutRec) : CheckoutRec :=
  { c with return_date := some now }

/-- The field assignments of `update_user` (full replace). -/
def putUserFields (inp : UserIn) (x : UserRec) : UserRec :=
  { x with
    name := inp.name
    email := inp.email
    address := inp.address
    phone_number := inp.phoneNumber }

/-- The field assignments of `update_book` (full replace; the ISBN write is
a no-op when the payload ISBN equals the row's). -/
def putBookFields (inp : BookIn) (b : BookRec) : BookRec :=
  { b with
    isbn := inp.isbn
    title := inp.title
    author := inp.author
    publisher := inp.publisher
    year := inp.year
    pages := inp.pages
    genre := inp.genre
    location := inp.location }

/-- `POST /checkout` (`checkout_book`): 404 on missing user or book, 400 on
an unavailable book; otherwise insert an open checkout due at
`now.replace(hour=23, minute=59, second=59) + timedelta(days=30)`, flip the
book to unavailable, and return the due date. -/
def checkout_book (db : DB) (now : Nat) (inp : CheckoutIn) : Except ApiError (Nat × DB) :=
  match findUser db inp.userId with
  | none => .error (.notFound "User not found")
  | some _ =>
    match findBook db inp.isbn with
    | none => .error (.notFound "Book not found")
    | some b =>
      if !b.is_available then .error (.conflict "Book is not available")
      else
        let due := endOfDay now + loanPeriodDays * secondsPerDay
        let newCheckout : CheckoutRec :=
          ⟨db.next_checkout_id, inp.userId, inp.isbn, now, due, none⟩
        let books' := updateFirst (fun bb => bb.isbn == inp.isbn) setUnavailable db.books
        .ok (due, { db with
          books := books',
          checkouts := db.checkouts ++ [newCheckout],
          next_checkout_id := db.next_checkout_id + 1 })

/-- `POST /return/{isbn}` (`return_book`): 404 when no open checkout matches
the (isbn, user) pair; otherwise stamp `return_date := now`, flip the book
back to available, and commit — unless `now` exceeds the due date.  In the
late branch the source computes `late_fee = days_late * 0.50` (a float) and
runs `user.fine_balance += late_fee`; `fine_balance` is a `Numeric(10,2)`
column loaded as `decimal.Decimal`, and `Decimal + float` raises
`TypeError`, so every late return dies with HTTP 500 and the transaction
rolls back (modelled as `serverError` with the store unchanged) — no late
fee is ever applied and the return itself is discarded.  The unguarded
`book.is_available = True` dereference likewise crashes when the book row
is missing.  Returns the applied fee on the (only surviving) on-time path,
which is always `none`. -/
def return_book (db : DB) (now : Nat) (i uid : Nat) : Except ApiError (Option Rat × DB) :=
  match findOpenCheckout db i uid with
  | none => .error (.notFound "No active checkout found for this book and user")
  | some c =>
    let checkouts' := updateFirst (isOpenFor i uid) (setReturned now) db.checkouts
    match findBook db i with
    | none => .error .serverError
    | some _ =>
      let books' := updateFirst (fun bb => bb.isbn == i) setAvailable db.books
      if c.due_date < now then
        .error .serverError
      else
        .ok (none, { db with books := books', checkouts := checkouts' })

/-- `GET /users` (`get_all_users`): project every row to (id, name, email). -/
def get_all_users (db : DB) : List (Nat × String × String) :=
  db.users.map fun u => (u.user_id, u.name, u.email)

/-- `GET /books` (`get_all_books`): project every row to
(isbn, title, author, availability). -/
def get_all_books (db : DB) : List (Nat × String × String × Bool) :=
  db.books.map fun b => (b.isbn, b.title, b.author, b.is_available)

/-- `PUT /users/{user_id}` (`update_user`): 404 on a missing user; 400 when
the email changes to one already registered; otherwise overwrite every
mutable field with the request value. -/
def update_user (db : DB) (uid : Nat) (inp : UserIn) : Except ApiError DB :=
  match findUser db uid with
  | none => .error (.notFound "User not found")
  | some u =>
    if inp.email != u.email && (findUserByEmail db inp.email).isSome then
      .error (.conflict "Email already registered")
    else
      let users' := updateFirst (fun x => x.user_id == uid) (putUserFields inp) db.users
      .ok { db with users := users' }

/-- `PUT /books/{isbn}` (`update_book`): 404 on a missing book; when the
payload ISBN differs from the path ISBN, 400 if the new ISBN is taken, else
the key itself is rewritten; then every other mutable field is overwritten.
Checkout rows are not touched — so committing a key change while any
checkout row still references the old ISBN carried by no remaining book
violates the `checkouts.isbn -> books.isbn` foreign key (NO ACTION):
IntegrityError, HTTP 500, rollback, modelled as `serverError` with the
store unchanged. -/
def update_book (db : DB) (i : Nat) (inp : BookIn) : Except ApiError DB :=
  match findBook db i with
  | none => .error (.notFound "Book not found")
  | some _ =>
    if inp.isbn != i && (findBook db inp.isbn).isSome then
      .error (.conflict "Book with this ISBN already exists")
    else
      let books' := updateFirst (fun b => b.isbn == i) (putBookFields inp) db.books
      if inp.isbn != i && db.checkouts.any (fun c => c.isbn == i) &&
          !(books'.any fun b => b.isbn == i) then
        .error .serverError
      else
        .ok { db with books := books' }

/-- `if o is not None: field = o` on an optional column: an absent (or null)
payload value keeps the old value. -/
def patchOpt (o old : Option α) : Option α :=
  match o with
  | some v => some v
  | none => old

/-- The guarded field assignments of `patch_user`. -/
def patchUserFields (upd : UserUpdate) (x : UserRec) : UserRec :=
  { x with
    name := upd.name.getD x.name
    email := upd.email.getD x.email
    address := patchOpt upd.address x.address
    phone_number := patchOpt upd.phoneNumber x.phone_number }

/-- The guarded field assignments of `patch_book`. -/
def patchBookFields (upd : BookUpdate) (b : BookRec) : BookRec :=
  { b with
    title := upd.title.getD b.title
    author := upd.author.getD b.author
    publisher := patchOpt upd.publisher b.publisher
    year := patchOpt upd.year b.year
    pages := patchOpt upd.pages b.pages
    genre := patchOpt upd.genre b.genre
    location := patchOpt upd.location b.location }

/-- `PATCH /users/{user_id}` (`patch_user`): 404 on a missing user; the email
uniqueness check runs only when the payload email is truthy (non-`None`,
non-empty) and differs from the current one; then each present field is
written and each absent field kept. -/
def patch_user (db : DB) (uid : Nat) (upd : UserUpdate) : Except ApiError DB :=
  match findUser db uid with
  | none => .error (.notFound "User not found")
  | some u =>
    let emailConflict : Bool :=
      match upd.email with
      | some e => e != "" && e != u.email && (findUserByEmail db e).isSome
      | none => false
    if emailConflict then .error (.conflict "Email already registered")
    else
      let users' := updateFirst (fun x => x.user_id == uid) (patchUserFields upd) db.users
      .ok { db with users := users' }

/-- `PATCH /books/{isbn}` (`patch_book`): 404 on a missing book; then each
present field is written and each absent field kept.  The ISBN and the
availability flag are not touchable here. -/
def patch_book (db : DB) (i : Nat) (upd : BookUpdate) : Except ApiError DB :=
  match findBook db i with
  | none => .error (.notFound "Book not found")
  | some _ =>
    let books' := updateFirst (fun b => b.isbn == i) (patchBookFields upd) db.books
    .ok { db with books := books' }

/-- `DELETE /users/{user_id}` (`delete_user`): 404 on a missing user, 400
while the user has any open checkout.  With no open checkout the handler
calls `session.delete(user)`; no delete cascade is configured, so at flush
SQLAlchemy nulls the children's `checkouts.user_id` — a non-nullable
foreign-key column — and the commit fails (IntegrityError, HTTP 500,
rollback, modelled as `serverError`) whenever any (necessarily closed)
checkout row still references the user.  Only a user with no checkout
history at all is actually removed. -/
def delete_user (db : DB) (uid : Nat) : Except ApiError DB :=
  match findUser db uid with
  | none => .error (.notFound "User not found")
  | some _ =>
    if 0 < openCheckoutCountForUser db uid then
      .error (.conflict "Cannot delete user with active book checkouts. Please return all books first.")
    else if db.checkouts.any fun c => c.user_id == uid then
      .error .serverError
    else
      .ok { db with users := eraseFirst (fun u => u.user_id == uid) db.users }

/-- `DELETE /books/{isbn}` (`delete_book`): 404 on a missing book, 400 while
the book is checked out (unavailable).  As with `delete_user`, no cascade is
configured and `checkouts.isbn` is non-nullable, so the commit fails
(IntegrityError, HTTP 500, rollback, modelled as `serverError`) whenever
any closed checkout row still references the book; only a book with no
checkout history is actually removed. -/
def delete_book (db : DB) (i : Nat) : Except ApiError DB :=
  match findBook db i with
  | none => .error (.notFound "Book not found")
  | some b =>
    if !b.is_available then
      .error (.conflict "Cannot delete book that is currently checked out")
    else if db.checkouts.any fun c => c.isbn == i then
      .error .serverError
    else
      .ok { db with books := eraseFirst (fun bb => bb.isbn == i) db.books }

/-- One mutating request against the service. -/
inductive Op where
  | createUser (today : Nat) (inp : UserIn)
  | createBook (inp : BookIn)
  | updateUser (uid : Nat) (inp : UserIn)
  | updateBook (isbn : Nat) (inp : BookIn)
  | patchUser (uid : Nat) (upd : UserUpdate)
  | patchBook (isbn : Nat) (upd : BookUpdate)
  | deleteUser (uid : Nat)
  | deleteBook (isbn : Nat)
  | checkoutOp (now : Nat) (inp : CheckoutIn)
  | returnOp (now : Nat) (isbn : Nat) (uid : Nat)
deriving DecidableEq, Repr

/-- Database after a handler returning a payload: an error rolls back. -/
def dbOf (db : DB) : Except ApiError (ρ × DB) → DB
  | .ok (_, db') => db'
  | .error _ => db

/-- Database after a handler returning only a message: an error rolls back. -/
def dbOfPlain (db : DB) : Except ApiError DB → DB
  | .ok db' => db'
  | .error _ => db

/-- The state transition of one request. -/
def applyOp (db : DB) : Op → DB
  | .createUser today inp => dbOf db (create_user db today inp)
  | .createBook inp => dbOfPlain db (create_book db inp)
  | .updateUser uid inp => dbOfPlain db (update_user db uid inp)
  | .updateBook i inp => dbOfPlain db (update_book db i inp)
  | .patchUser uid upd => dbOfPlain db (patch_user db uid upd)
  | .patchBook i upd => dbOfPlain db (patch_book db i upd)
  | .deleteUser uid => dbOfPlain db (delete_user db uid)
  | .deleteBook i => dbOfPlain db (delete_book db i)
  | .checkoutOp now inp => dbOf db (checkout_book db now inp)
  | .returnOp now i uid => dbOf db (return_book db now i uid)

/-- The freshly bootstrapped store: three empty tables. -/
def initDB : DB := ⟨[], [], [], 1⟩

/-- Run a sequence of requests from the empty store. -/
def runOps (ops : List Op) : DB := ops.foldl applyOp initDB

/-! ### Generic lemmas about `updateFirst`, `eraseFirst` and `List.find?` -/

theorem updateFirst_cons_pos {p : α → Bool} {f : α → α} {a : α} {l : List α}
    (hp : p a = true) : updateFirst p f (a :: l) = f a :: l := by
  simp [updateFirst, hp]

theorem updateFirst_cons_neg {p : α → Bool} {f : α → α} {a : α} {l : List α}
    (hp : p a = false) : updateFirst p f (a :: l) = a :: updateFirst p f l := by
  simp [updateFirst, hp]

theorem eraseFirst_cons_pos {p : α → Bool} {a : α} {l : List α}
    (hp : p a = true) : eraseFirst p (a :: l) = l := by
  simp [eraseFirst, hp]

theorem eraseFirst_cons_neg {p : α → Bool} {a : α} {l : List α}
    (hp : p a = false) : eraseFirst p (a :: l) = a :: eraseFirst p l := by
  simp [eraseFirst, hp]

theorem updateFirst_decomp {p : α → Bool} (f : α → α) {l : List α} {x : α}
    (h : l.find? p = some x) :
    ∃ l1 l2, l = l1 ++ x :: l2 ∧ p x = true ∧ (∀ y ∈ l1, p y = false) ∧
      updateFirst p f l = l1 ++ f x :: l2 := by
  induction l with
  | nil => cases h
  | cons a l ih =>
    cases hp : p a with
    | true =>
      rw [List.find?_cons_of_pos l hp] at h
      obtain rfl : a = x := by simpa using h
      exact ⟨[], l, by simp, hp, by simp, by simp [updateFirst_cons_pos hp]⟩
    | false =>
      rw [List.find?_cons_of_neg l (by simp [hp])] at h
      obtain ⟨l1, l2, hl, hx, hnot, hupd⟩ := ih h
      refine ⟨a :: l1, l2, by simp [hl], hx, ?_, by simp [updateFirst_cons_neg hp, hupd]⟩
      intro y hy
      rcases List.mem_cons.mp hy with rfl | hy
      · exact hp
      · exact hnot y hy

theorem eraseFirst_decomp {p : α → Bool} {l : List α} {x : α}
    (h : l.find? p = some x) :
    ∃ l1 l2, l = l1 ++ x :: l2 ∧ p x = true ∧ (∀ y ∈ l1, p y = false) ∧
      eraseFirst p l = l1 ++ l2 := by
  induction l with
  | nil => cases h
  | cons a l ih =>
    cases hp : p a with
    | true =>
      rw [List.find?_cons_of_pos l hp] at h
      obtain rfl : a = x := by simpa using h
      exact ⟨[], l, by simp, hp, by simp, by simp [eraseFirst_cons_pos hp]⟩
    | false =>
      rw [List.find?_cons_of_neg l (by simp [hp])] at h
      obtain ⟨l1, l2, hl, hx, hnot, hupd⟩ := ih h
      refine ⟨a :: l1, l2, by simp [hl], hx, ?_, by simp [eraseFirst_cons_neg hp, hupd]⟩
      intro y hy
      rcases List.mem_cons.mp hy with rfl | hy
      · exact hp
      · exact hnot y hy

theorem map_updateFirst {p : α → Bool} {f : α → α} (g : α → β)
    (h : ∀ x, p x = true → g (f x) = g x) (l : List α) :
    (updateFirst p f l).map g = l.map g := by
  induction l with
  | nil => rfl
  | cons a l ih =>
    cases hp : p a with
    | true => simp [updateFirst_cons_pos hp, h a hp]
    | false => simp [updateFirst_cons_neg hp, ih]

theorem find?_updateFirst_self {q : α → Bool} {f : α → α}
    (hq : ∀ x, q (f x) = q x) {l : List α} {u : α}
    (h : l.find? q = some u) : (updateFirst q f l).find? q = some (f u) := by
  induction l with
  | nil => cases h
  | cons a l ih =>
    cases hqa : q a with
    | true =>
      rw [List.find?_cons_of_pos l hqa] at h
      obtain rfl : a = u := by simpa using h
      have hqfa : q (f a) = true := by rw [hq a, hqa]
      rw [updateFirst_cons_pos hqa, List.find?_cons_of_pos _ hqfa]
    | false =>
      rw [List.find?_cons_of_neg l (by simp [hqa])] at h
      rw [updateFirst_cons_neg hqa, List.find?_cons_of_neg _ (by simp [hqa])]
      exact ih h

theorem endOfDay_add_days (t n : Nat) :
    endOfDay t + n * secondsPerDay = endOfDay (t + n * secondsPerDay) := by
  unfold endOfDay secondsPerDay
  rw [Nat.add_mul_div_right t n (by norm_num)]
  ring

/-- After `update_book` rewrites the key of the (unique) book at ISBN `i`
to a different value, no book row carries `i` any more. -/
theorem updateFirst_putBookFields_no_old_isbn {db : DB} {i : Nat} {inp : BookIn}
    {b : BookRec} (hnd : (db.books.map fun x => x.isbn).Nodup)
    (hb : findBook db i = some b) (hne : inp.isbn ≠ i) :
    ∀ b' ∈ updateFirst (fun x => x.isbn == i) (putBookFields inp) db.books,
      b'.isbn ≠ i := by
  obtain ⟨l1, l2, hl, hpb, hl1, hupd⟩ := updateFirst_decomp (putBookFields inp) hb
  have hbi : b.isbn = i := by simpa using hpb
  rw [hl, List.map_append, List.map_cons, hbi] at hnd
  rw [List.nodup_append] at hnd
  have hi2 : i ∉ l2.map fun x => x.isbn := (List.nodup_cons.mp hnd.2.1).1
  intro b' hb'
  rw [hupd] at hb'
  rcases List.mem_append.mp hb' with h1 | h2
  · simpa using hl1 b' h1
  · rcases List.mem_cons.mp h2 with rfl | h3
    · simpa [putBookFields] using hne
    · intro he
      exact hi2 (he ▸ List.mem_map_of_mem (fun x => x.isbn) h3)

/-! ### Concrete fixtures used by witnesses and counterexamples -/

/-- A registered user. -/
def u1 : UserRec := ⟨100000, "Ada", "a", 0, 0, none, none⟩

/-- A catalogued, available book. -/
def b1 : BookRec := ⟨1, "T", "A", none, none, none, none, none, true⟩

/-- The same book while checked out. -/
def b1c : BookRec := { b1 with is_available := false }

/-- The open checkout of `b1` by `u1`, due 30 days after time 0. -/
def c1 : CheckoutRec := ⟨1, 100000, 1, 0, 86399 + 30 * 86400, none⟩

/-- A store with one user and one available book. -/
def dbA : DB := ⟨[u1], [b1], [], 1⟩

/-- A store with one user holding one open checkout of the only book. -/
def dbC : DB := ⟨[u1], [b1c], [c1], 2⟩

/-- A return instant 10 days and one second past the due date. -/
def retNow : Nat := c1.due_date + 10 * 86400 + 1

/-! ### C4 -/

/-- C4: a return request whose (ISBN, user) pair has no open checkout fails
with NotFound and leaves the whole store (every user, book, and checkout
row) unchanged. -/
theorem C4_return_without_open_checkout (db : DB) (now i uid : Nat)
    (h : findOpenCheckout db i uid = none) :
    return_book db now i uid =
      .error (.notFound "No active checkout found for this book and user") ∧
    applyOp db (.returnOp now i uid) = db := by
  constructor
  · simp [return_book, h]
  · simp [applyOp, return_book, h, dbOf]

/-- Witness for C4 at a concrete store with no checkouts. -/
theorem C4_return_without_open_checkout_witness :
    return_book dbA 0 1 100000 =
      .error (.notFound "No active checkout found for this book and user") ∧
    applyOp dbA (.returnOp 0 1 100000) = dbA :=
  C4_return_without_open_checkout dbA 0 1 100000 (by decide)

/-! ### C5 -/

/-- C5: a checkout request naming an existing user and an existing but
unavailable book fails with Conflict (the HTTP 400 "Book is not available")
and changes nothing: no new checkout row, no row modified. -/
theorem C5_checkout_unavailable (db : DB) (now : Nat) (inp : CheckoutIn)
    (u : UserRec) (b : BookRec) (hu : findUser db inp.userId = some u)
    (hb : findBook db inp.isbn = some b) (hav : b.is_available = false) :
    checkout_book db now inp = .error (.conflict "Book is not available") ∧
    applyOp db (.checkoutOp now inp) = db := by
  constructor
  · simp [checkout_book, hu, hb, hav]
  · simp [applyOp, checkout_book, hu, hb, hav, dbOf]

/-- Witness for C5 at a concrete store whose only book is checked out. -/
theorem C5_checkout_unavailable_witness :
    checkout_book dbC 0 ⟨100000, 1⟩ = .error (.conflict "Book is not available") ∧
    applyOp dbC (.checkoutOp 0 ⟨100000, 1⟩) = dbC :=
  C5_checkout_unavailable dbC 0 ⟨100000, 1⟩ u1 b1c (by decide) (by decide) (by decide)

/-! ### C8 -/

/-- C8: user creation (with a fresh email) appends exactly one user whose
identifier is assigned by the service: `max(existing ids) + 1` when users
exist, and the base offset `100000` when the table is empty.  (The API
offers no caller-supplied identifier; the claim's disjunction holds through
its auto-assignment arm.) -/
theorem C8_user_id_assignment (db : DB) (today : Nat) (inp : UserIn)
    (h : findUserByEmail db inp.email = none) :
    ∃ nid db', create_user db today inp = .ok (nid, db') ∧
      db'.users = db.users ++
        [⟨nid, inp.name, inp.email, today, 0, inp.address, inp.phoneNumber⟩] ∧
      (db.users = [] → nid = 100000) ∧
      (db.users ≠ [] →
        ∃ m, (db.users.map fun u => u.user_id).max? = some m ∧ nid = m + 1) := by
  simp only [create_user, h]
  refine ⟨_, _, rfl, rfl, ?_, ?_⟩
  · intro hnil
    rw [hnil]
    rfl
  · intro hne
    have hmax : (db.users.map fun u => u.user_id).max? ≠ none := by
      intro hcon
      rw [List.max?_eq_none_iff] at hcon
      exact hne (by simpa using hcon)
    obtain ⟨m, hm⟩ := Option.ne_none_iff_exists'.mp hmax
    exact ⟨m, hm, by rw [hm]⟩

/-- Witness for C8: creating a second user in `dbA` assigns 100001, and
creating the first user in the empty store assigns 100000. -/
theorem C8_user_id_assignment_witness :
    (∃ nid db', create_user dbA 5 ⟨"B", "b", none, none⟩ = .ok (nid, db') ∧
      db'.users = dbA.users ++ [⟨nid, "B", "b", 5, 0, none, none⟩] ∧
      (dbA.users = [] → nid = 100000) ∧
      (dbA.users ≠ [] →
        ∃ m, (dbA.users.map fun u => u.user_id).max? = some m ∧ nid = m + 1)) ∧
    (∃ nid db', create_user initDB 5 ⟨"B", "b", none, none⟩ = .ok (nid, db') ∧
      db'.users = initDB.users ++ [⟨nid, "B", "b", 5, 0, none, none⟩] ∧
      (initDB.users = [] → nid = 100000) ∧
      (initDB.users ≠ [] →
        ∃ m, (initDB.users.map fun u => u.user_id).max? = some m ∧ nid = m + 1)) :=
  ⟨C8_user_id_assignment dbA 5 ⟨"B", "b", none, none⟩ (by decide),
   C8_user_id_assignment initDB 5 ⟨"B", "b", none, none⟩ (by decide)⟩

/-! ### C3 -/

/-- C3: checking out an existing, available book for an existing user
succeeds, appends exactly one new open checkout row with checkout time
`now` and due time `now + 30 days` normalized to that day's 23:59:59
(the code computes `endOfDay now + 30 days`, which equals
`endOfDay (now + 30 days)` since whole days preserve the time of day),
flips the book's availability flag to false in the same transition, and
returns the new checkout's due date. -/
theorem C3_checkout_success (db : DB) (now : Nat) (inp : CheckoutIn)
    (u : UserRec) (b : BookRec) (hu : findUser db inp.userId = some u)
    (hb : findBook db inp.isbn = some b) (hav : b.is_available = true) :
    ∃ db', checkout_book db now inp =
        .ok (endOfDay now + loanPeriodDays * secondsPerDay, db') ∧
      endOfDay now + loanPeriodDays * secondsPerDay
        = endOfDay (now + loanPeriodDays * secondsPerDay) ∧
      db'.checkouts = db.checkouts ++
        [⟨db.next_checkout_id, inp.userId, inp.isbn, now,
          endOfDay now + loanPeriodDays * secondsPerDay, none⟩] ∧
      findBook db' inp.isbn = some { b with is_available := false } ∧
      db'.users = db.users := by
  refine ⟨{ db with
      books := updateFirst (fun bb => bb.isbn == inp.isbn) setUnavailable db.books,
      checkouts := db.checkouts ++
        [⟨db.next_checkout_id, inp.userId, inp.isbn, now,
          endOfDay now + loanPeriodDays * secondsPerDay, none⟩],
      next_checkout_id := db.next_checkout_id + 1 },
    ?_, endOfDay_add_days now loanPeriodDays, rfl, ?_, rfl⟩
  · simp [checkout_book, hu, hb, hav]
  · exact @find?_updateFirst_self BookRec (fun bb => bb.isbn == inp.isbn)
      setUnavailable (fun x => rfl) db.books b hb

/-- Witness for C3: checking out the available book of `dbA` at time 0. -/
theorem C3_checkout_success_witness :
    ∃ db', checkout_book dbA 0 ⟨100000, 1⟩ =
        .ok (endOfDay 0 + loanPeriodDays * secondsPerDay, db') ∧
      endOfDay 0 + loanPeriodDays * secondsPerDay
        = endOfDay (0 + loanPeriodDays * secondsPerDay) ∧
      db'.checkouts = dbA.checkouts ++
        [⟨dbA.next_checkout_id, 100000, 1, 0,
          endOfDay 0 + loanPeriodDays * secondsPerDay, none⟩] ∧
      findBook db' 1 = some { b1 with is_available := false } ∧
      db'.users = dbA.users :=
  C3_checkout_success dbA 0 ⟨100000, 1⟩ u1 b1 (by decide) (by decide) (by decide)

/-! ### C9 -/

/-- The PUT body that tries to move a book to the fresh ISBN 2. -/
def bIn2 : BookIn := ⟨2, "T", "A", none, none, none, none, none⟩

/-- Counterexample to C9 as stated: in `dbC` (book 1 checked out) the
ISBN-changing PUT violates the `checkouts.isbn` foreign key at commit and
rolls back, so afterwards the open checkout still references ISBN 1 and a
book with ISBN 1 still exists — the claimed orphaning does not occur. -/
theorem C9_isbn_change_counterexample :
    applyOp dbC (.updateBook 1 bIn2) = dbC ∧
    (∃ c, c ∈ (applyOp dbC (.updateBook 1 bIn2)).checkouts ∧ c.isbn = 1 ∧
      c.return_date = none) ∧
    ∃ b', b' ∈ (applyOp dbC (.updateBook 1 bIn2)).books ∧ b'.isbn = 1 := by decide

/-- C9 (amended): a full book update moving an existing book (ISBNs unique,
as the primary key guarantees) to a fresh ISBN fails with a server error
(foreign-key violation at commit) and changes nothing whenever any checkout
row references the old ISBN; when no checkout row references it, the update
succeeds, checkout rows are unchanged, and no book carries the old ISBN
afterwards. -/
theorem C9_isbn_change_fk_gate :
    (∀ (db : DB) (i : Nat) (inp : BookIn) (b : BookRec) (c : CheckoutRec),
      (db.books.map fun x => x.isbn).Nodup →
      findBook db i = some b → findBook db inp.isbn = none →
      c ∈ db.checkouts → c.isbn = i →
      update_book db i inp = .error .serverError ∧
      applyOp db (.updateBook i inp) = db) ∧
    (∀ (db : DB) (i : Nat) (inp : BookIn) (b : BookRec),
      (db.books.map fun x => x.isbn).Nodup →
      findBook db i = some b → findBook db inp.isbn = none →
      (∀ c ∈ db.checkouts, c.isbn ≠ i) →
      ∃ db', update_book db i inp = .ok db' ∧ db'.checkouts = db.checkouts ∧
        ∀ b' ∈ db'.books, b'.isbn ≠ i) := by
  have hneOf : ∀ (db : DB) (i : Nat) (inp : BookIn) (b : BookRec),
      findBook db i = some b → findBook db inp.isbn = none → inp.isbn ≠ i := by
    intro db i inp b hb hfresh he
    rw [he] at hfresh
    rw [hfresh] at hb
    cases hb
  constructor
  · intro db i inp b c hnd hb hfresh hc hci
    have hne := hneOf db i inp b hb hfresh
    have hA : (inp.isbn != i) = true := by simp [hne]
    have hcond : (inp.isbn != i && (findBook db inp.isbn).isSome) = false := by
      simp [hfresh]
    have hanyb : ((updateFirst (fun x => x.isbn == i) (putBookFields inp) db.books).any
        fun x => x.isbn == i) = false := by
      rw [List.any_eq_false]
      intro x hx
      simpa using updateFirst_putBookFields_no_old_isbn hnd hb hne x hx
    have hBany : (db.checkouts.any fun cc => cc.isbn == i) = true := by
      rw [List.any_eq_true]
      exact ⟨c, hc, by simp [hci]⟩
    constructor
    · simp [update_book, hb, hfresh, hA, hBany, hanyb]
    · simp [applyOp, update_book, hb, hfresh, hA, hBany, hanyb, dbOfPlain]
  · intro db i inp b hnd hb hfresh hno
    have hne := hneOf db i inp b hb hfresh
    have hcond : (inp.isbn != i && (findBook db inp.isbn).isSome) = false := by
      simp [hfresh]
    have hBany : (db.checkouts.any fun cc => cc.isbn == i) = false := by
      rw [List.any_eq_false]
      intro cc hcc
      simpa using hno cc hcc
    refine ⟨{ db with
        books := updateFirst (fun x => x.isbn == i) (putBookFields inp) db.books },
      ?_, rfl, ?_⟩
    · simp [update_book, hb, hfresh, hBany]
    · intro b' hb'
      exact updateFirst_putBookFields_no_old_isbn hnd hb hne b' hb'

/-- Witness for the amended C9: blocked on `dbC` (open checkout on ISBN 1),
successful and old-ISBN-free on the checkout-less `dbA`. -/
theorem C9_isbn_change_fk_gate_witness :
    (update_book dbC 1 bIn2 = .error .serverError ∧
      applyOp dbC (.updateBook 1 bIn2) = dbC) ∧
    (∃ db', update_book dbA 1 bIn2 = .ok db' ∧ db'.checkouts = dbA.checkouts ∧
      ∀ b' ∈ db'.books, b'.isbn ≠ 1) :=
  ⟨C9_isbn_change_fk_gate.1 dbC 1 bIn2 b1c c1 (by decide) (by decide) (by decide)
      (by decide) (by decide),
   C9_isbn_change_fk_gate.2 dbA 1 bIn2 b1 (by decide) (by decide) (by decide)
      (by decide)⟩

/-! ### C7 -/

/-- C7: partial updates (PATCH) of an existing user or book leave every
omitted field at its prior value, and a full update (PUT) of an existing
user overwrites every mutable field with the request's value. -/
theorem C7_update_field_semantics :
    (∀ (db : DB) (uid : Nat) (upd : UserUpdate) (u : UserRec) (db' : DB),
      findUser db uid = some u → patch_user db uid upd = .ok db' →
      ∃ u', findUser db' uid = some u' ∧
        (upd.name = none → u'.name = u.name) ∧
        (upd.email = none → u'.email = u.email) ∧
        (upd.address = none → u'.address = u.address) ∧
        (upd.phoneNumber = none → u'.phone_number = u.phone_number)) ∧
    (∀ (db : DB) (i : Nat) (upd : BookUpdate) (b : BookRec) (db' : DB),
      findBook db i = some b → patch_book db i upd = .ok db' →
      ∃ b', findBook db' i = some b' ∧
        (upd.title = none → b'.title = b.title) ∧
        (upd.author = none → b'.author = b.author) ∧
        (upd.publisher = none → b'.publisher = b.publisher) ∧
        (upd.year = none → b'.year = b.year) ∧
        (upd.pages = none → b'.pages = b.pages) ∧
        (upd.genre = none → b'.genre = b.genre) ∧
        (upd.location = none → b'.location = b.location) ∧
        b'.isbn = b.isbn ∧ b'.is_available = b.is_available) ∧
    (∀ (db : DB) (uid : Nat) (inp : UserIn) (u : UserRec) (db' : DB),
      findUser db uid = some u → update_user db uid inp = .ok db' →
      ∃ u', findUser db' uid = some u' ∧ u'.name = inp.name ∧
        u'.email = inp.email ∧ u'.address = inp.address ∧
        u'.phone_number = inp.phoneNumber) := by
  refine ⟨?_, ?_, ?_⟩
  · intro db uid upd u db' hu hok
    simp only [patch_user, hu] at hok
    split at hok
    · cases hok
    · injection hok with h
      subst h
      refine ⟨patchUserFields upd u,
        @find?_updateFirst_self UserRec (fun x => x.user_id == uid)
          (patchUserFields upd) (fun x => rfl) db.users u hu, ?_, ?_, ?_, ?_⟩
      · intro h; simp [patchUserFields, h]
      · intro h; simp [patchUserFields, h]
      · intro h; simp [patchUserFields, h, patchOpt]
      · intro h; simp [patchUserFields, h, patchOpt]
  · intro db i upd b db' hb hok
    simp only [patch_book, hb] at hok
    injection hok with h
    subst h
    refine ⟨patchBookFields upd b,
      @find?_updateFirst_self BookRec (fun bb => bb.isbn == i)
        (patchBookFields upd) (fun x => rfl) db.books b hb,
      ?_, ?_, ?_, ?_, ?_, ?_, ?_, rfl, rfl⟩
    all_goals intro h
    all_goals simp [patchBookFields, h, patchOpt]
  · intro db uid inp u db' hu hok
    simp only [update_user, hu] at hok
    split at hok
    · cases hok
    · injection hok with h
      subst h
      exact ⟨putUserFields inp u,
        @find?_updateFirst_self UserRec (fun x => x.user_id == uid)
          (putUserFields inp) (fun x => rfl) db.users u hu,
        rfl, rfl, rfl, rfl⟩

/-- An all-absent PATCH body for users. -/
def updNoneU : UserUpdate := ⟨none, none, none, none⟩

/-- An all-absent PATCH body for books. -/
def updNoneB : BookUpdate := ⟨none, none, none, none, none, none, none⟩

/-- A PUT body for users. -/
def inpPutU : UserIn := ⟨"N", "a", none, none⟩

/-- Witness for C7: an empty PATCH leaves `dbA` unchanged for both the user
and the book; a full PUT rewrites every mutable user field. -/
theorem C7_update_field_semantics_witness :
    (∃ u', findUser dbA 100000 = some u' ∧
      (updNoneU.name = none → u'.name = u1.name) ∧
      (updNoneU.email = none → u'.email = u1.email) ∧
      (updNoneU.address = none → u'.address = u1.address) ∧
      (updNoneU.phoneNumber = none → u'.phone_number = u1.phone_number)) ∧
    (∃ b', findBook dbA 1 = some b' ∧
      (updNoneB.title = none → b'.title = b1.title) ∧
      (updNoneB.author = none → b'.author = b1.author) ∧
      (updNoneB.publisher = none → b'.publisher = b1.publisher) ∧
      (updNoneB.year = none → b'.year = b1.year) ∧
      (updNoneB.pages = none → b'.pages = b1.pages) ∧
      (updNoneB.genre = none → b'.genre = b1.genre) ∧
      (updNoneB.location = none → b'.location = b1.location) ∧
      b'.isbn = b1.isbn ∧ b'.is_available = b1.is_available) ∧
    (∃ u', findUser ⟨[⟨100000, "N", "a", 0, 0, none, none⟩], [b1], [], 1⟩ 100000 = some u' ∧
      u'.name = inpPutU.name ∧ u'.email = inpPutU.email ∧
      u'.address = inpPutU.address ∧ u'.phone_number = inpPutU.phoneNumber) :=
  ⟨C7_update_field_semantics.1 dbA 100000 updNoneU u1 dbA (by decide) (by rfl),
   C7_update_field_semantics.2.1 dbA 1 updNoneB b1 dbA (by decide) (by rfl),
   C7_update_field_semantics.2.2 dbA 100000 inpPutU u1
     ⟨[⟨100000, "N", "a", 0, 0, none, none⟩], [b1], [], 1⟩ (by decide) (by rfl)⟩

/-! ### C10 -/

theorem patchOpt_isSome {o old : Option α} (h : old.isSome = true) :
    (patchOpt o old).isSome = true := by
  cases o <;> simp [patchOpt, h]

/-- C10: in a PATCH of a user or book, a `null` request field and an omitted
one reach the handler identically (both as an absent value, here `none`),
and such a field keeps the stored value; hence no optional field (address,
phone number, publisher, year, pages, genre, location) can be cleared from
a non-null value back to null by a partial update. -/
theorem C10_patch_null_equals_omitted :
    (∀ (db : DB) (uid : Nat) (upd : UserUpdate) (u : UserRec) (db' : DB),
      findUser db uid = some u → patch_user db uid upd = .ok db' →
      ∃ u', findUser db' uid = some u' ∧
        u'.address = patchOpt upd.address u.address ∧
        u'.phone_number = patchOpt upd.phoneNumber u.phone_number ∧
        (u.address.isSome = true → u'.address.isSome = true) ∧
        (u.phone_number.isSome = true → u'.phone_number.isSome = true)) ∧
    (∀ (db : DB) (i : Nat) (upd : BookUpdate) (b : BookRec) (db' : DB),
      findBook db i = some b → patch_book db i upd = .ok db' →
      ∃ b', findBook db' i = some b' ∧
        b'.publisher = patchOpt upd.publisher b.publisher ∧
        b'.year = patchOpt upd.year b.year ∧
        b'.pages = patchOpt upd.pages b.pages ∧
        b'.genre = patchOpt upd.genre b.genre ∧
        b'.location = patchOpt upd.location b.location ∧
        (b.publisher.isSome = true → b'.publisher.isSome = true) ∧
        (b.year.isSome = true → b'.year.isSome = true) ∧
        (b.pages.isSome = true → b'.pages.isSome = true) ∧
        (b.genre.isSome = true → b'.genre.isSome = true) ∧
        (b.location.isSome = true → b'.location.isSome = true)) := by
  constructor
  · intro db uid upd u db' hu hok
    simp only [patch_user, hu] at hok
    split at hok
    · cases hok
    · injection hok with h
      subst h
      exact ⟨patchUserFields upd u,
        @find?_updateFirst_self UserRec (fun x => x.user_id == uid)
          (patchUserFields upd) (fun x => rfl) db.users u hu,
        rfl, rfl, fun h => patchOpt_isSome h, fun h => patchOpt_isSome h⟩
  · intro db i upd b db' hb hok
    simp only [patch_book, hb] at hok
    injection hok with h
    subst h
    exact ⟨patchBookFields upd b,
      @find?_updateFirst_self BookRec (fun bb => bb.isbn == i)
        (patchBookFields upd) (fun x => rfl) db.books b hb,
      rfl, rfl, rfl, rfl, rfl,
      fun h => patchOpt_isSome h, fun h => patchOpt_isSome h,
      fun h => patchOpt_isSome h, fun h => patchOpt_isSome h,
      fun h => patchOpt_isSome h⟩

/-- A user of `dbAa` who has an address on file. -/
def u1a : UserRec := { u1 with address := some "Rd" }

/-- The book of `dbAa`, carrying a publisher. -/
def b1p : BookRec := { b1 with publisher := some "P" }

/-- A store whose user has an address and whose book has a publisher. -/
def dbAa : DB := ⟨[u1a], [b1p], [], 1⟩

/-- Witness for C10: an all-null PATCH body leaves the stored address and
publisher intact. -/
theorem C10_patch_null_equals_omitted_witness :
    (∃ u', findUser dbAa 100000 = some u' ∧
      u'.address = patchOpt updNoneU.address u1a.address ∧
      u'.phone_number = patchOpt updNoneU.phoneNumber u1a.phone_number ∧
      (u1a.address.isSome = true → u'.address.isSome = true) ∧
      (u1a.phone_number.isSome = true → u'.phone_number.isSome = true)) ∧
    (∃ b', findBook dbAa 1 = some b' ∧
      b'.publisher = patchOpt updNoneB.publisher b1p.publisher ∧
      b'.year = patchOpt updNoneB.year b1p.year ∧
      b'.pages = patchOpt updNoneB.pages b1p.pages ∧
      b'.genre = patchOpt updNoneB.genre b1p.genre ∧
      b'.location = patchOpt updNoneB.location b1p.location ∧
      (b1p.publisher.isSome = true → b'.publisher.isSome = true) ∧
      (b1p.year.isSome = true → b'.year.isSome = true) ∧
      (b1p.pages.isSome = true → b'.pages.isSome = true) ∧
      (b1p.genre.isSome = true → b'.genre.isSome = true) ∧
      (b1p.location.isSome = true → b'.location.isSome = true)) :=
  ⟨C10_patch_null_equals_omitted.1 dbAa 100000 updNoneU u1a dbAa (by decide) (by rfl),
   C10_patch_null_equals_omitted.2 dbAa 1 updNoneB b1p dbAa (by decide) (by rfl)⟩

/-! ### C6 -/

/-- A closed (returned) checkout of book 1 by user 100000. -/
def cClosed : CheckoutRec := ⟨1, 100000, 1, 0, 86399 + 30 * 86400, some 5⟩

/-- A store whose only user and only (available) book share one closed
checkout. -/
def dbH : DB := ⟨[u1], [b1], [cClosed], 2⟩

/-- C6 evidence: in `dbH` the user has zero open checkouts and the book is
available, yet both deletes die with a server error — no delete cascade is
configured and the checkout foreign-key columns are non-nullable, so the
commit fails for any entity with checkout history.  The store is unchanged
and both entities still appear in their listings, contradicting the
success the claim (and the spec, and the handlers' own "cascade" comments)
asserts. -/
theorem C6_delete_with_history_crashes :
    openCheckoutCountForUser dbH 100000 = 0 ∧
    delete_user dbH 100000 = .error .serverError ∧
    applyOp dbH (.deleteUser 100000) = dbH ∧
    (100000, "Ada", "a") ∈ get_all_users dbH ∧
    b1.is_available = true ∧
    delete_book dbH 1 = .error .serverError ∧
    applyOp dbH (.deleteBook 1) = dbH ∧
    (1, "T", "A", true) ∈ get_all_books dbH :=
  ⟨by decide, by rfl, by decide, by decide, by decide, by rfl, by decide, by decide⟩

/-! ### C1 -/

/-- C1 evidence: at `dbC` a return 10 days past the due date takes the
late-fee branch, where the source runs `user.fine_balance += late_fee`
with `fine_balance` a `Numeric(10,2)` column loaded as `decimal.Decimal`
and `late_fee` a Python float; `Decimal + float` raises `TypeError`, the
request dies with HTTP 500 and the transaction rolls back.  No late fee is
ever applied, and the return itself (return timestamp, availability flip)
is discarded with it: the user's balance stays 0 and the store is
unchanged. -/
theorem C1_late_fee_crash :
    c1.due_date < retNow ∧
    return_book dbC retNow 1 100000 = .error .serverError ∧
    applyOp dbC (.returnOp retNow 1 100000) = dbC ∧
    (findUser dbC 100000).map (fun u => u.fine_balance) = some 0 :=
  ⟨by decide, by rfl, by decide, by decide⟩

/-! ### C2 -/

/-- Number of checkout rows referencing ISBN `i` with a null return
timestamp. -/
def openCount (cs : List CheckoutRec) (i : Nat) : Nat :=
  cs.countP fun c => c.return_date.isNone && c.isbn == i

/-- The inductive invariant tying the books and checkouts tables together:
unique ISBNs, the availability flag mirrors the absence of an open checkout,
at most one open checkout per ISBN, and every open checkout references an
existing book. -/
def InvBC (bs : List BookRec) (cs : List CheckoutRec) : Prop :=
  ((bs.map fun b => b.isbn).Nodup) ∧
  (∀ k ∈ bs.map fun b => (b.isbn, b.is_available),
    k.2 = true ↔ openCount cs k.1 = 0) ∧
  (∀ i, openCount cs i ≤ 1) ∧
  (∀ c ∈ cs, c.return_date = none → c.isbn ∈ bs.map fun b => b.isbn)

/-- The invariant of a store state. -/
def Inv (db : DB) : Prop := InvBC db.books db.checkouts

theorem Inv_of_eq {db dbn : DB} (hb : dbn.books = db.books)
    (hc : dbn.checkouts = db.checkouts) (h : Inv db) : Inv dbn := by
  unfold Inv at h ⊢
  rw [hb, hc]
  exact h

theorem Inv_createUser {db : DB} (today : Nat) (inp : UserIn) (h : Inv db) :
    Inv (applyOp db (.createUser today inp)) := by
  cases hf : findUserByEmail db inp.email with
  | some v => refine Inv_of_eq ?_ ?_ h <;> simp [applyOp, create_user, hf, dbOf]
  | none => refine Inv_of_eq ?_ ?_ h <;> simp [applyOp, create_user, hf, dbOf]

theorem Inv_updateUser {db : DB} (t : Nat) (inp : UserIn) (h : Inv db) :
    Inv (applyOp db (.updateUser t inp)) := by
  cases hf : findUser db t with
  | none => refine Inv_of_eq ?_ ?_ h <;> simp [applyOp, update_user, hf, dbOfPlain]
  | some v =>
    by_cases hc : (inp.email != v.email && (findUserByEmail db inp.email).isSome) = true
    · refine Inv_of_eq ?_ ?_ h <;> simp [applyOp, update_user, hf, hc, dbOfPlain]
    · refine Inv_of_eq ?_ ?_ h <;> simp [applyOp, update_user, hf, hc, dbOfPlain]

theorem Inv_patchUser {db : DB} (t : Nat) (upd : UserUpdate) (h : Inv db) :
    Inv (applyOp db (.patchUser t upd)) := by
  cases hf : findUser db t with
  | none => refine Inv_of_eq ?_ ?_ h <;> simp [applyOp, patch_user, hf, dbOfPlain]
  | some v =>
    by_cases hc : (match upd.email with
        | some e => e != "" && e != v.email && (findUserByEmail db e).isSome
        | none => false) = true
    · refine Inv_of_eq ?_ ?_ h <;> simp [applyOp, patch_user, hf, hc, dbOfPlain]
    · refine Inv_of_eq ?_ ?_ h <;> simp [applyOp, patch_user, hf, hc, dbOfPlain]

theorem Inv_deleteUser {db : DB} (t : Nat) (h : Inv db) :
    Inv (applyOp db (.deleteUser t)) := by
  cases hf : findUser db t with
  | none => refine Inv_of_eq ?_ ?_ h <;> simp [applyOp, delete_user, hf, dbOfPlain]
  | some v =>
    by_cases hcnt : 0 < openCheckoutCountForUser db t
    · refine Inv_of_eq ?_ ?_ h <;> simp [applyOp, delete_user, hf, hcnt, dbOfPlain]
    · by_cases hany : (db.checkouts.any fun c => c.user_id == t) = true
      · refine Inv_of_eq ?_ ?_ h <;>
          simp [applyOp, delete_user, hf, hcnt, hany, dbOfPlain]
      · refine Inv_of_eq ?_ ?_ h <;>
          simp [applyOp, delete_user, hf, hcnt, hany, dbOfPlain]

theorem Inv_createBook {db : DB} (inp : BookIn) (h : Inv db) :
    Inv (applyOp db (.createBook inp)) := by
  cases hf : findBook db inp.isbn with
  | some v => refine Inv_of_eq ?_ ?_ h <;> simp [applyOp, create_book, hf, dbOfPlain]
  | none =>
    obtain ⟨h1, h2, h3, h4⟩ := h
    have hfresh : inp.isbn ∉ db.books.map fun b => b.isbn := by
      rw [findBook, List.find?_eq_none] at hf
      intro hmem
      obtain ⟨b, hb, hbe⟩ := List.mem_map.mp hmem
      exact hf b hb (by simp [hbe])
    have hstate : applyOp db (.createBook inp) =
        { db with books := db.books ++
          [⟨inp.isbn, inp.title, inp.author, inp.publisher, inp.year, inp.pages,
            inp.genre, inp.location, true⟩] } := by
      simp [applyOp, create_book, hf, dbOfPlain]
    rw [hstate]
    unfold Inv InvBC
    refine ⟨?_, ?_, h3, ?_⟩
    · simp only [List.map_append, List.map_cons, List.map_nil]
      rw [List.nodup_append]
      refine ⟨h1, List.nodup_singleton _, ?_⟩
      intro a ha hmem
      rcases List.mem_singleton.mp hmem with rfl
      exact hfresh ha
    · intro k hk
      simp only [List.map_append, List.map_cons, List.map_nil] at hk
      rcases List.mem_append.mp hk with hold | hnew
      · exact h2 k hold
      · rcases List.mem_singleton.mp hnew with rfl
        constructor
        · intro _
          by_contra h0
          have hpos := Nat.pos_of_ne_zero h0
          rw [openCount, List.countP_pos_iff] at hpos
          obtain ⟨c, hc, hpc⟩ := hpos
          rw [Bool.and_eq_true] at hpc
          have hop : c.return_date = none := Option.isNone_iff_eq_none.mp hpc.1
          have hi : c.isbn = inp.isbn := by simpa using hpc.2
          exact hfresh (hi ▸ h4 c hc hop)
        · intro _
          rfl
    · intro c hc hcr
      simp only [List.map_append]
      exact List.mem_append_left _ (h4 c hc hcr)

theorem Inv_patchBook {db : DB} (t : Nat) (upd : BookUpdate) (h : Inv db) :
    Inv (applyOp db (.patchBook t upd)) := by
  cases hf : findBook db t with
  | none => refine Inv_of_eq ?_ ?_ h <;> simp [applyOp, patch_book, hf, dbOfPlain]
  | some v =>
    have hstate : applyOp db (.patchBook t upd) =
        { db with books :=
          updateFirst (fun b => b.isbn == t) (patchBookFields upd) db.books } := by
      simp [applyOp, patch_book, hf, dbOfPlain]
    rw [hstate]
    show InvBC (updateFirst (fun b => b.isbn == t) (patchBookFields upd) db.books)
      db.checkouts
    obtain ⟨h1, h2, h3, h4⟩ := h
    have hmi := @map_updateFirst BookRec Nat (fun b => b.isbn == t)
      (patchBookFields upd) (fun b => b.isbn) (fun x _ => rfl) db.books
    have hmk := @map_updateFirst BookRec (Nat × Bool) (fun b => b.isbn == t)
      (patchBookFields upd) (fun b => (b.isbn, b.is_available)) (fun x _ => rfl) db.books
    exact ⟨by rw [hmi]; exact h1, by rw [hmk]; exact h2, h3,
      fun c hc hcr => by rw [hmi]; exact h4 c hc hcr⟩

theorem Inv_updateBook {db : DB} (t : Nat) (inp : BookIn) (h : Inv db) :
    Inv (applyOp db (.updateBook t inp)) := by
  cases hf : findBook db t with
  | none => refine Inv_of_eq ?_ ?_ h <;> simp [applyOp, update_book, hf, dbOfPlain]
  | some v =>
    by_cases hit : inp.isbn = t
    · have hcond : (inp.isbn != t && (findBook db inp.isbn).isSome) = false := by
        simp [hit]
      have hfk : (inp.isbn != t && (db.checkouts.any fun c => c.isbn == t) &&
          !((updateFirst (fun b => b.isbn == t) (putBookFields inp) db.books).any
            fun b => b.isbn == t)) = false := by
        simp [hit]
      have hstate : applyOp db (.updateBook t inp) =
          { db with books :=
            updateFirst (fun b => b.isbn == t) (putBookFields inp) db.books } := by
        simp [applyOp, update_book, hf, hcond, hfk, dbOfPlain]
      rw [hstate]
      show InvBC (updateFirst (fun b => b.isbn == t) (putBookFields inp) db.books)
        db.checkouts
      obtain ⟨h1, h2, h3, h4⟩ := h
      have hiso : ∀ x : BookRec, (x.isbn == t) = true →
          (putBookFields inp x).isbn = x.isbn := by
        intro x hx
        have hxt : x.isbn = t := by simpa using hx
        simp [putBookFields, hit, hxt]
      have hmi := @map_updateFirst BookRec Nat (fun b => b.isbn == t)
        (putBookFields inp) (fun b => b.isbn) hiso db.books
      have hmk := @map_updateFirst BookRec (Nat × Bool) (fun b => b.isbn == t)
        (putBookFields inp) (fun b => (b.isbn, b.is_available))
        (fun x hx => by rw [Prod.mk.injEq]; exact ⟨hiso x hx, rfl⟩) db.books
      exact ⟨by rw [hmi]; exact h1, by rw [hmk]; exact h2, h3,
        fun c hc hcr => by rw [hmi]; exact h4 c hc hcr⟩
    · by_cases hsome : (findBook db inp.isbn).isSome = true
      · have hcond : (inp.isbn != t && (findBook db inp.isbn).isSome) = true := by
          simp [hit, hsome]
        refine Inv_of_eq ?_ ?_ h <;>
          simp [applyOp, update_book, hf, hcond, dbOfPlain]
      · have hfresh : findBook db inp.isbn = none := by
          rcases hfb2 : findBook db inp.isbn with _ | w
          · rfl
          · rw [hfb2] at hsome
            simp at hsome
        have h1 : (db.books.map fun x => x.isbn).Nodup := h.1
        have hanyb : ((updateFirst (fun b => b.isbn == t) (putBookFields inp)
            db.books).any fun b => b.isbn == t) = false := by
          rw [List.any_eq_false]
          intro x hx
          simpa using updateFirst_putBookFields_no_old_isbn h1 hf hit x hx
        by_cases hBany : (db.checkouts.any fun c => c.isbn == t) = true
        · have hfk : (inp.isbn != t && (db.checkouts.any fun c => c.isbn == t) &&
              !((updateFirst (fun b => b.isbn == t) (putBookFields inp) db.books).any
                fun b => b.isbn == t)) = true := by
            simp [hit, hBany, hanyb]
          refine Inv_of_eq ?_ ?_ h <;>
            simp [applyOp, update_book, hf, hfresh, hfk, dbOfPlain]
        · have hstate : applyOp db (.updateBook t inp) =
              { db with books :=
                updateFirst (fun b => b.isbn == t) (putBookFields inp) db.books } := by
            simp [applyOp, update_book, hf, hfresh, hBany, dbOfPlain]
          rw [hstate]
          show InvBC (updateFirst (fun b => b.isbn == t) (putBookFields inp) db.books)
            db.checkouts
          obtain ⟨h1x, h2, h3, h4⟩ := h
          have hBf : (db.checkouts.any fun c => c.isbn == t) = false := by
            simpa using hBany
          have hnockt : ∀ c ∈ db.checkouts, c.isbn ≠ t := by
            rw [List.any_eq_false] at hBf
            intro c hc he
            exact hBf c hc (by simp [he])
          have hfb3 : db.books.find? (fun b => b.isbn == t) = some v := hf
          obtain ⟨l1, l2, hl, hpv, hl1, hupd⟩ :=
            updateFirst_decomp (putBookFields inp) hfb3
          have hvt : v.isbn = t := by simpa using hpv
          have hfreshm : inp.isbn ∉ db.books.map fun x => x.isbn := by
            rw [findBook, List.find?_eq_none] at hfresh
            intro hmem
            obtain ⟨bb, hbb, hbe⟩ := List.mem_map.mp hmem
            exact hfresh bb hbb (by simp [hbe])
          have hopen_t : openCount db.checkouts t = 0 := by
            rw [openCount, List.countP_eq_zero]
            intro c hc hpc
            rw [Bool.and_eq_true] at hpc
            exact hnockt c hc (by simpa using hpc.2)
          have hopen_new : openCount db.checkouts inp.isbn = 0 := by
            rw [openCount, List.countP_eq_zero]
            intro c hc hpc
            rw [Bool.and_eq_true] at hpc
            have hop : c.return_date = none := Option.isNone_iff_eq_none.mp hpc.1
            have hie : c.isbn = inp.isbn := by simpa using hpc.2
            exact hfreshm (hie ▸ h4 c hc hop)
          have hvav : v.is_available = true := by
            have hk : v.is_available = true ↔ openCount db.checkouts v.isbn = 0 :=
              h2 (v.isbn, v.is_available)
                (List.mem_map_of_mem _ (List.mem_of_find?_eq_some hf))
            exact hk.mpr (by rw [hvt]; exact hopen_t)
          have hndold := h1x
          rw [hl, List.map_append, List.map_cons] at hndold hfreshm
          rw [List.nodup_append] at hndold
          obtain ⟨hnd_l1, hnd_cons, hdisj⟩ := hndold
          obtain ⟨hv_notin_l2, hnd_l2⟩ := List.nodup_cons.mp hnd_cons
          rw [hupd]
          refine ⟨?_, ?_, h3, ?_⟩
          · rw [List.map_append, List.map_cons]
            rw [List.nodup_append]
            refine ⟨hnd_l1, List.nodup_cons.mpr ⟨?_, hnd_l2⟩, ?_⟩
            · intro hmem
              refine hfreshm (List.mem_append_right _ (List.mem_cons_of_mem _ ?_))
              simpa [putBookFields] using hmem
            · intro a ha hmem
              rcases List.mem_cons.mp hmem with he | hmem2
              · rw [he] at ha
                exact hfreshm
                  (List.mem_append_left _ (by simpa [putBookFields] using ha))
              · exact hdisj ha (List.mem_cons_of_mem _ hmem2)
          · intro k hk
            rw [List.map_append, List.map_cons] at hk
            rcases List.mem_append.mp hk with hk1 | hk2
            · obtain ⟨y, hy, rfl⟩ := List.mem_map.mp hk1
              exact h2 _ (List.mem_map_of_mem _
                (by rw [hl]; exact List.mem_append_left _ hy))
            · rcases List.mem_cons.mp hk2 with rfl | hk3
              · exact ⟨fun _ => by simpa [putBookFields] using hopen_new,
                  fun _ => by simpa [putBookFields] using hvav⟩
              · obtain ⟨y, hy, rfl⟩ := List.mem_map.mp hk3
                exact h2 _ (List.mem_map_of_mem _
                  (by rw [hl]; exact List.mem_append_right _ (List.mem_cons_of_mem v hy)))
          · intro c hc hcr
            have hcm := h4 c hc hcr
            rw [hl, List.map_append, List.map_cons] at hcm
            rw [List.map_append, List.map_cons]
            rcases List.mem_append.mp hcm with hm1 | hm2
            · exact List.mem_append_left _ hm1
            · rcases List.mem_cons.mp hm2 with he | hm3
              · exact absurd (he.trans hvt) (hnockt c hc)
              · exact List.mem_append_right _ (List.mem_cons_of_mem _ hm3)

theorem Inv_deleteBook {db : DB} (t : Nat) (h : Inv db) :
    Inv (applyOp db (.deleteBook t)) := by
  cases hf : findBook db t with
  | none => refine Inv_of_eq ?_ ?_ h <;> simp [applyOp, delete_book, hf, dbOfPlain]
  | some v =>
    cases hav : v.is_available with
    | false =>
      refine Inv_of_eq ?_ ?_ h <;> simp [applyOp, delete_book, hf, hav, dbOfPlain]
    | true =>
      by_cases hany : (db.checkouts.any fun c => c.isbn == t) = true
      · refine Inv_of_eq ?_ ?_ h <;>
          simp [applyOp, delete_book, hf, hav, hany, dbOfPlain]
      · have hstate : applyOp db (.deleteBook t) =
            { db with books := eraseFirst (fun bb => bb.isbn == t) db.books } := by
          simp [applyOp, delete_book, hf, hav, hany, dbOfPlain]
        rw [hstate]
        show InvBC (eraseFirst (fun bb => bb.isbn == t) db.books) db.checkouts
        obtain ⟨h1, h2, h3, h4⟩ := h
        obtain ⟨l1, l2, hl, hpt, hl1, herase⟩ := eraseFirst_decomp hf
        have hvi : v.isbn = t := by simpa using hpt
        have hBf : (db.checkouts.any fun c => c.isbn == t) = false := by
          simpa using hany
        have hnockt : ∀ c ∈ db.checkouts, c.isbn ≠ t := by
          rw [List.any_eq_false] at hBf
          intro c hc he
          exact hBf c hc (by simp [he])
        rw [herase]
        refine ⟨?_, ?_, h3, ?_⟩
        · have hsub : List.Sublist (l1 ++ l2) db.books := by
            rw [hl]
            exact List.Sublist.append_left (List.sublist_cons_self v l2) l1
          exact List.Nodup.sublist (List.Sublist.map _ hsub) h1
        · intro k hk
          rw [List.map_append] at hk
          rcases List.mem_append.mp hk with hk1 | hk2
          · obtain ⟨y, hy, rfl⟩ := List.mem_map.mp hk1
            exact h2 _ (List.mem_map_of_mem _
              (by rw [hl]; exact List.mem_append_left _ hy))
          · obtain ⟨y, hy, rfl⟩ := List.mem_map.mp hk2
            exact h2 _ (List.mem_map_of_mem _
              (by rw [hl]; exact List.mem_append_right _ (List.mem_cons_of_mem v hy)))
        · intro c hc hcr
          have hne : c.isbn ≠ t := hnockt c hc
          have hmem := h4 c hc hcr
          rw [hl, List.map_append, List.map_cons, hvi] at hmem
          rw [List.map_append]
          rcases List.mem_append.mp hmem with hm1 | hm2
          · exact List.mem_append_left _ hm1
          · rcases List.mem_cons.mp hm2 with he | hm3
            · exact absurd he hne
            · exact List.mem_append_right _ hm3

theorem Inv_checkout {db : DB} (now : Nat) (inp : CheckoutIn) (h : Inv db) :
    Inv (applyOp db (.checkoutOp now inp)) := by
  cases hfu : findUser db inp.userId with
  | none => refine Inv_of_eq ?_ ?_ h <;> simp [applyOp, checkout_book, hfu, dbOf]
  | some u =>
    cases hbk : findBook db inp.isbn with
    | none => refine Inv_of_eq ?_ ?_ h <;> simp [applyOp, checkout_book, hfu, hbk, dbOf]
    | some b =>
      cases hav : b.is_available with
      | false =>
        refine Inv_of_eq ?_ ?_ h <;> simp [applyOp, checkout_book, hfu, hbk, hav, dbOf]
      | true =>
        have hstate : applyOp db (.checkoutOp now inp) =
            { db with
              books := updateFirst (fun bb => bb.isbn == inp.isbn) setUnavailable db.books,
              checkouts := db.checkouts ++
                [⟨db.next_checkout_id, inp.userId, inp.isbn, now,
                  endOfDay now + loanPeriodDays * secondsPerDay, none⟩],
              next_checkout_id := db.next_checkout_id + 1 } := by
          simp [applyOp, checkout_book, hfu, hbk, hav, dbOf]
        rw [hstate]
        show InvBC (updateFirst (fun bb => bb.isbn == inp.isbn) setUnavailable db.books)
          (db.checkouts ++ [⟨db.next_checkout_id, inp.userId, inp.isbn, now,
            endOfDay now + loanPeriodDays * secondsPerDay, none⟩])
        obtain ⟨h1, h2, h3, h4⟩ := h
        have hbi : b.isbn = inp.isbn := by simpa using List.find?_some hbk
        have hopen0 : openCount db.checkouts inp.isbn = 0 := by
          have hk := h2 (b.isbn, b.is_available)
            (List.mem_map_of_mem _ (List.mem_of_find?_eq_some hbk))
          rw [← hbi]
          exact hk.mp hav
        have hcount : ∀ j, openCount (db.checkouts ++
            [⟨db.next_checkout_id, inp.userId, inp.isbn, now,
              endOfDay now + loanPeriodDays * secondsPerDay, none⟩]) j =
            openCount db.checkouts j + (if inp.isbn = j then 1 else 0) := by
          intro j
          by_cases hj : inp.isbn = j <;>
            simp [openCount, List.countP_append, List.countP_cons, hj]
        obtain ⟨l1, l2, hl, hpb, hl1, hupd⟩ := updateFirst_decomp setUnavailable hbk
        have hmi := @map_updateFirst BookRec Nat (fun bb => bb.isbn == inp.isbn)
          setUnavailable (fun bb => bb.isbn) (fun x _ => rfl) db.books
        have hnd2 : inp.isbn ∉ l2.map fun bb => bb.isbn := by
          have hh := h1
          rw [hl, List.map_append, List.map_cons, hbi] at hh
          rw [List.nodup_append] at hh
          exact (List.nodup_cons.mp hh.2.1).1
        refine ⟨?_, ?_, ?_, ?_⟩
        · rw [hmi]
          exact h1
        · intro k hk
          rw [hupd, List.map_append, List.map_cons] at hk
          rcases List.mem_append.mp hk with hk1 | hk2
          · obtain ⟨y, hy, rfl⟩ := List.mem_map.mp hk1
            have hyne : inp.isbn ≠ y.isbn := by
              have := hl1 y hy
              intro he
              simp [← he] at this
            rw [hcount, if_neg hyne, Nat.add_zero]
            exact h2 (y.isbn, y.is_available)
              (List.mem_map_of_mem _ (by rw [hl]; exact List.mem_append_left _ hy))
          · rcases List.mem_cons.mp hk2 with rfl | hk3
            · simp only [setUnavailable]
              rw [hbi]
              simp [hcount, hopen0]
            · obtain ⟨y, hy, rfl⟩ := List.mem_map.mp hk3
              have hyne : inp.isbn ≠ y.isbn := by
                intro he
                exact hnd2 (he ▸ List.mem_map_of_mem (fun bb => bb.isbn) hy)
              rw [hcount, if_neg hyne, Nat.add_zero]
              exact h2 (y.isbn, y.is_available)
                (List.mem_map_of_mem _
                  (by rw [hl]; exact List.mem_append_right _ (List.mem_cons_of_mem b hy)))
        · intro j
          rw [hcount]
          by_cases hj : inp.isbn = j
          · rw [← hj, hopen0]
            simp
          · rw [if_neg hj, Nat.add_zero]
            exact h3 j
        · intro c hc hcr
          rw [hmi]
          rcases List.mem_append.mp hc with hold | hnew
          · exact h4 c hold hcr
          · rcases List.mem_singleton.mp hnew with rfl
            exact List.mem_map.mpr ⟨b, List.mem_of_find?_eq_some hbk, hbi⟩

theorem InvBC_return_core {db : DB} (now i uid : Nat) (c : CheckoutRec) (b : BookRec)
    (hoc : findOpenCheckout db i uid = some c) (hbk : findBook db i = some b)
    (h : Inv db) :
    InvBC (updateFirst (fun bb => bb.isbn == i) setAvailable db.books)
      (updateFirst (isOpenFor i uid) (setReturned now) db.checkouts) := by
  obtain ⟨h1, h2, h3, h4⟩ := h
  obtain ⟨m1, m2, hm, hpc, hm1, hcupd⟩ := updateFirst_decomp (setReturned now) hoc
  obtain ⟨l1, l2, hlb, hpb, hl1, hbupd⟩ := updateFirst_decomp setAvailable hbk
  have hbi : b.isbn = i := by simpa using List.find?_some hbk
  have hcf : (c.isbn = i ∧ c.user_id = uid) ∧ c.return_date = none := by
    simpa [isOpenFor, Option.isNone_iff_eq_none, and_assoc] using hpc
  obtain ⟨⟨hci, hcu⟩, hcr⟩ := hcf
  have hA : ∀ j, openCount db.checkouts j =
      openCount m1 j + openCount m2 j + (if i = j then 1 else 0) := by
    intro j
    rw [hm]
    by_cases hj : i = j <;>
      simp [openCount, List.countP_append, List.countP_cons, hci, hcr, hj]
    all_goals omega
  have hB : ∀ j, openCount (updateFirst (isOpenFor i uid) (setReturned now)
      db.checkouts) j = openCount m1 j + openCount m2 j := by
    intro j
    rw [hcupd]
    simp [openCount, List.countP_append, List.countP_cons, setReturned]
  have hzero : openCount m1 i + openCount m2 i = 0 := by
    have h3i := h3 i
    rw [hA i, if_pos rfl] at h3i
    omega
  have hBne : ∀ j, i ≠ j →
      openCount (updateFirst (isOpenFor i uid) (setReturned now) db.checkouts) j =
      openCount db.checkouts j := by
    intro j hj
    rw [hB j, hA j, if_neg hj, Nat.add_zero]
  have hmi := @map_updateFirst BookRec Nat (fun bb => bb.isbn == i)
    setAvailable (fun bb => bb.isbn) (fun x _ => rfl) db.books
  have hnd2 : i ∉ l2.map fun bb => bb.isbn := by
    have hh := h1
    rw [hlb, List.map_append, List.map_cons, hbi] at hh
    rw [List.nodup_append] at hh
    exact (List.nodup_cons.mp hh.2.1).1
  refine ⟨?_, ?_, ?_, ?_⟩
  · rw [hmi]
    exact h1
  · intro k hk
    rw [hbupd, List.map_append, List.map_cons] at hk
    rcases List.mem_append.mp hk with hk1 | hk2
    · obtain ⟨y, hy, rfl⟩ := List.mem_map.mp hk1
      have hyne : i ≠ y.isbn := by
        have := hl1 y hy
        intro he
        simp [← he] at this
      rw [hBne y.isbn hyne]
      exact h2 (y.isbn, y.is_available)
        (List.mem_map_of_mem _ (by rw [hlb]; exact List.mem_append_left _ hy))
    · rcases List.mem_cons.mp hk2 with rfl | hk3
      · simp only [setAvailable]
        rw [hbi]
        simp [hB, hzero]
      · obtain ⟨y, hy, rfl⟩ := List.mem_map.mp hk3
        have hyne : i ≠ y.isbn := by
          intro he
          exact hnd2 (he ▸ List.mem_map_of_mem (fun bb => bb.isbn) hy)
        rw [hBne y.isbn hyne]
        exact h2 (y.isbn, y.is_available)
          (List.mem_map_of_mem _
            (by rw [hlb]; exact List.mem_append_right _ (List.mem_cons_of_mem b hy)))
  · intro j
    by_cases hj : i = j
    · rw [← hj, hB i, hzero]
      omega
    · rw [hBne j hj]
      exact h3 j
  · intro c' hc' hcr'
    rw [hmi]
    rw [hcupd] at hc'
    rcases List.mem_append.mp hc' with hc1 | hc2
    · exact h4 c' (by rw [hm]; exact List.mem_append_left _ hc1) hcr'
    · rcases List.mem_cons.mp hc2 with rfl | hc3
      · simp [setReturned] at hcr'
      · exact h4 c'
          (by rw [hm]; exact List.mem_append_right _ (List.mem_cons_of_mem c hc3)) hcr'

theorem Inv_return {db : DB} (now i uid : Nat) (h : Inv db) :
    Inv (applyOp db (.returnOp now i uid)) := by
  cases hoc : findOpenCheckout db i uid with
  | none => refine Inv_of_eq ?_ ?_ h <;> simp [applyOp, return_book, hoc, dbOf]
  | some c =>
    cases hbk : findBook db i with
    | none => refine Inv_of_eq ?_ ?_ h <;> simp [applyOp, return_book, hoc, hbk, dbOf]
    | some b =>
      by_cases hlt : c.due_date < now
      · refine Inv_of_eq ?_ ?_ h <;>
          simp [applyOp, return_book, hoc, hbk, hlt, dbOf]
      · have hstate : applyOp db (.returnOp now i uid) =
            { db with
              books := updateFirst (fun bb => bb.isbn == i) setAvailable db.books,
              checkouts := updateFirst (isOpenFor i uid) (setReturned now)
                db.checkouts } := by
          simp [applyOp, return_book, hoc, hbk, hlt, dbOf]
        rw [hstate]
        exact InvBC_return_core now i uid c b hoc hbk h

theorem Inv_applyOp {db : DB} (op : Op) (h : Inv db) :
    Inv (applyOp db op) := by
  cases op with
  | createUser today inp => exact Inv_createUser today inp h
  | createBook inp => exact Inv_createBook inp h
  | updateUser t inp => exact Inv_updateUser t inp h
  | updateBook t inp => exact Inv_updateBook t inp h
  | patchUser t upd => exact Inv_patchUser t upd h
  | patchBook t upd => exact Inv_patchBook t upd h
  | deleteUser t => exact Inv_deleteUser t h
  | deleteBook t => exact Inv_deleteBook t h
  | checkoutOp now inp => exact Inv_checkout now inp h
  | returnOp now i uid => exact Inv_return now i uid h

theorem Inv_foldl (ops : List Op) : ∀ db : DB,
    Inv db → Inv (ops.foldl applyOp db) := by
  induction ops with
  | nil =>
    intro db h
    simpa using h
  | cons op ops ih =>
    intro db h
    rw [List.foldl_cons]
    exact ih (applyOp db op) (Inv_applyOp op h)

theorem Inv_runOps (ops : List Op) : Inv (runOps ops) :=
  Inv_foldl ops initDB (by simp [Inv, InvBC, initDB, openCount])

/-- C2: in every state reachable from the empty store by the operations
(create, update, delete, checkout, return), a book's availability flag is
true iff no checkout row references that book's ISBN with a null return
timestamp.  The would-be violation — a full update moving a checked-out
book to a fresh ISBN — is stopped by the `checkouts.isbn` foreign key at
commit, so the invariant is inductive across all ten operations with no
restriction. -/
theorem C2_availability_invariant (ops : List Op) :
    ∀ b ∈ (runOps ops).books, b.is_available = true ↔
      ¬ ∃ c, c ∈ (runOps ops).checkouts ∧ c.isbn = b.isbn ∧
        c.return_date = none := by
  obtain ⟨h1, h2, h3, h4⟩ := Inv_runOps ops
  intro b hb
  have hk : b.is_available = true ↔ openCount (runOps ops).checkouts b.isbn = 0 :=
    h2 (b.isbn, b.is_available)
      (List.mem_map_of_mem (fun b => (b.isbn, b.is_available)) hb)
  rw [hk]
  constructor
  · intro h0 hex
    obtain ⟨c, hc, hci, hcr⟩ := hex
    have hpos : 0 < openCount (runOps ops).checkouts b.isbn := by
      rw [openCount, List.countP_pos_iff]
      exact ⟨c, hc, by simp [hcr, hci]⟩
    omega
  · intro hne
    by_contra h0
    have hpos : 0 < openCount (runOps ops).checkouts b.isbn :=
      Nat.pos_of_ne_zero h0
    rw [openCount, List.countP_pos_iff] at hpos
    obtain ⟨c, hc, hpc⟩ := hpos
    rw [Bool.and_eq_true] at hpc
    exact hne ⟨c, hc, by simpa using hpc.2, Option.isNone_iff_eq_none.mp hpc.1⟩

/-- A request sequence exercising create, checkout, full update and
return. -/
def seqW : List Op :=
  [ .createUser 0 ⟨"Ada", "a", none, none⟩,
    .createBook ⟨1, "T", "A", none, none, none, none, none⟩,
    .checkoutOp 0 ⟨100000, 1⟩,
    .updateBook 1 ⟨1, "T2", "A", none, none, none, none, none⟩,
    .returnOp 5 1 100000 ]

/-- The catalogue row `seqW` ends with: checked out, retitled in place,
then returned on time, hence available again. -/
def bW : BookRec := ⟨1, "T2", "A", none, none, none, none, none, true⟩

/-- Witness for C2 at a concrete request sequence. -/
theorem C2_availability_invariant_witness :
    bW ∈ (runOps seqW).books ∧
    (bW.is_available = true ↔
      ¬ ∃ c, c ∈ (runOps seqW).checkouts ∧ c.isbn = bW.isbn ∧
        c.return_date = none) :=
  ⟨by decide, C2_availability_invariant seqW bW (by decide)⟩

end LibraryApi
